import Mathlib

/-!
Verification of the DHS-Atlas agent core (dhs_atlas_agent) against its
natural-language specification.  The Python source is shallowly embedded:
strings are Lean `String`s, JSON-decoded Python values are the inductive
`Json` below, fallible Python code returns `Except`, and the conversation
loop of `DHSAtlasAgent.chat` is a fuel-indexed recursion on the round
budget.  Definitions are translated from `agents/main_agent.py`,
`tools/finance/quotation_tools.py`, the `models/` data-access layer and
`api/server.py`.
-/

/-- Model of a JSON-decoded Python value (`json.loads` output).  Numbers are
restricted to integers: the claims under verification never involve
fractional JSON numbers, and the parser model below rejects them. -/
inductive Json where
  | null : Json
  | bool (b : Bool) : Json
  | num (n : Int) : Json
  | str (s : String) : Json
  | arr (xs : List Json) : Json
  | obj (kvs : List (String × Json)) : Json

/-- Python `dict.get(k)` on a JSON object: later duplicate keys win, as in
`json.loads` building a Python dict. -/
def objGet (kvs : List (String × Json)) (k : String) : Option Json :=
  (kvs.reverse.find? (fun kv => kv.1 == k)).map (fun kv => kv.2)

example : objGet [("a", Json.num 1), ("a", Json.num 2)] "a" = some (Json.num 2) := rfl
example : objGet [("a", Json.num 1)] "b" = none := rfl

/-! ## String helpers modelling Python string/regex primitives -/

/-- Whitespace characters recognized by Python `str.strip()` and the regex
class in the source patterns (modelled over the ASCII range). -/
def isPySpace (c : Char) : Bool :=
  c == ' ' || c == '\t' || c == '\n' || c == '\x0d' || c == '\x0b' || c == '\x0c'

/-- Split a character list at the first occurrence of `pat`: returns the text
before the occurrence and the text after it, or `none` when `pat` does not
occur.  Models leftmost regex/`str.find` scanning. -/
def splitOnFirst (pat : List Char) : List Char → Option (List Char × List Char)
  | [] => if pat.isPrefixOf ([] : List Char) then some ([], []) else none
  | c :: rest =>
    if pat.isPrefixOf (c :: rest) then some ([], (c :: rest).drop pat.length)
    else
      match splitOnFirst pat rest with
      | none => none
      | some (pre, post) => some (c :: pre, post)

example : splitOnFirst "bc".data "abcd".data = some ("a".data, "d".data) := rfl
example : splitOnFirst "xy".data "abcd".data = none := rfl

/-- Python `str.strip()`: drop leading and trailing whitespace. -/
def pyStrip (s : List Char) : List Char :=
  ((s.dropWhile isPySpace).reverse.dropWhile isPySpace).reverse

/-- One pass of `re.sub(r'<think>.*?</think>', '', content, flags=re.DOTALL)`:
each non-overlapping leftmost match runs from an opening tag to the first
closing tag after it; an opening tag without any later closing tag never
matches. Fuel bounds the recursion (the remaining suffix shrinks each step). -/
def removeThinkAux : Nat → List Char → List Char
  | 0, s => s
  | Nat.succ fuel, s =>
    match splitOnFirst "<think>".data s with
    | none => s
    | some (pre, rest) =>
      match splitOnFirst "</think>".data rest with
      | none => s
      | some (_, post) => pre ++ removeThinkAux fuel post

/-- Emit a run of `k` consecutive newline characters the way
`re.sub(r'\n\x7b3,\x7d', '\n\n', content)` leaves it: runs of three or more
newlines collapse to exactly two. -/
def emitNewlineRun (k : Nat) : List Char :=
  if 3 ≤ k then ['\n', '\n'] else List.replicate k '\n'

/-- Collapse newline runs; `k` counts the pending consecutive newlines. -/
def collapseNewlinesAux (k : Nat) : List Char → List Char
  | [] => emitNewlineRun k
  | c :: rest =>
    if c == '\n' then collapseNewlinesAux (k + 1) rest
    else emitNewlineRun k ++ c :: collapseNewlinesAux 0 rest

/-- Model of `DHSAtlasAgent._filter_think_tags` (main_agent.py lines
161-170): strip `<think>...</think>` spans, collapse 3+ newlines to two,
then `strip()`. -/
def filterThinkTags (s : String) : String :=
  let s1 := removeThinkAux s.data.length s.data
  let s2 := collapseNewlinesAux 0 s1
  String.mk (pyStrip s2)

example : filterThinkTags "  <think>xx</think>hello\n\n\n\nworld " = "hello\n\nworld" := rfl
example : filterThinkTags "plain" = "plain" := rfl
example : filterThinkTags "<think>a" = "<think>a" := rfl

/-! ## Model of `json.loads` (strict mode, integers only) and `json.dumps`
(`ensure_ascii=False, default=str`, default separators). -/

/-- JSON structural whitespace. -/
def isJsonWs (c : Char) : Bool :=
  c == ' ' || c == '\t' || c == '\n' || c == '\x0d'

def skipWs (s : List Char) : List Char := s.dropWhile isJsonWs

def hexDigitVal (c : Char) : Option Nat :=
  if '0' ≤ c ∧ c ≤ '9' then some (c.toNat - 48)
  else if 'a' ≤ c ∧ c ≤ 'f' then some (c.toNat - 87)
  else if 'A' ≤ c ∧ c ≤ 'F' then some (c.toNat - 55)
  else none

/-- Body of a JSON string literal after the opening quote: returns the decoded
characters and the remainder after the closing quote.  Unescaped control
characters are rejected (CPython strict mode); `\uXXXX` escapes decode to the
code unit (surrogate pairing is not modelled; no claim involves it). -/
def parseStringBody : Nat → List Char → Option (List Char × List Char)
  | 0, _ => none
  | Nat.succ fuel, s =>
    match s with
    | [] => none
    | c :: rest =>
      if c == '"' then some ([], rest)
      else if c == '\\' then
        match rest with
        | [] => none
        | e :: rest2 =>
          let esc : Option (Char × List Char) :=
            if e == '"' then some ('"', rest2)
            else if e == '\\' then some ('\\', rest2)
            else if e == '/' then some ('/', rest2)
            else if e == 'b' then some ('\x08', rest2)
            else if e == 'f' then some ('\x0c', rest2)
            else if e == 'n' then some ('\n', rest2)
            else if e == 'r' then some ('\x0d', rest2)
            else if e == 't' then some ('\t', rest2)
            else if e == 'u' then
              match rest2 with
              | a :: b :: c2 :: d :: rest3 =>
                match hexDigitVal a, hexDigitVal b, hexDigitVal c2, hexDigitVal d with
                | some ha, some hb, some hc, some hd =>
                  some (Char.ofNat (((ha * 16 + hb) * 16 + hc) * 16 + hd), rest3)
                | _, _, _, _ => none
              | _ => none
            else none
          match esc with
          | none => none
          | some (ch, rest3) =>
            match parseStringBody fuel rest3 with
            | none => none
            | some (cs, rem) => some (ch :: cs, rem)
      else if c.toNat < 32 then none
      else
        match parseStringBody fuel rest with
        | none => none
        | some (cs, rem) => some (c :: cs, rem)

def isDigitCh (c : Char) : Bool := '0' ≤ c && c ≤ '9'

def digitsToNat (ds : List Char) : Nat :=
  ds.foldl (fun acc c => acc * 10 + (c.toNat - 48)) 0

/-- JSON integer literal: optional minus, no leading zeros; a following
fraction or exponent marker makes it a float, which this model rejects (no
verified claim involves fractional numbers). -/
def parseNumberTok (s : List Char) : Option (Int × List Char) :=
  let (negSign, s1) : Bool × List Char :=
    match s with
    | '-' :: r => (true, r)
    | _ => (false, s)
  let ds := s1.takeWhile isDigitCh
  let rest := s1.drop ds.length
  if ds.isEmpty then none
  else if 1 < ds.length ∧ ds.headD ' ' = '0' then none
  else
    match rest with
    | '.' :: _ => none
    | 'e' :: _ => none
    | 'E' :: _ => none
    | _ =>
      let n : Int := Int.ofNat (digitsToNat ds)
      some (if negSign then -n else n, rest)

mutual

/-- Recursive-descent JSON value: returns the value and the unconsumed
remainder.  Fuel is structural; `jsonLoads` supplies enough fuel that
exhaustion is unreachable on its inputs. -/
def parseValue : Nat → List Char → Option (Json × List Char)
  | 0, _ => none
  | Nat.succ fuel, s0 =>
    match skipWs s0 with
    | [] => none
    | c :: rest =>
      if c == 't' then
        if "rue".data.isPrefixOf rest then some (.bool true, rest.drop 3) else none
      else if c == 'f' then
        if "alse".data.isPrefixOf rest then some (.bool false, rest.drop 4) else none
      else if c == 'n' then
        if "ull".data.isPrefixOf rest then some (.null, rest.drop 3) else none
      else if c == '"' then
        match parseStringBody (rest.length + 1) rest with
        | none => none
        | some (cs, rem) => some (.str (String.mk cs), rem)
      else if c == '[' then
        match skipWs rest with
        | ']' :: rem => some (.arr [], rem)
        | rest2 =>
          match parseElems fuel rest2 with
          | none => none
          | some (xs, rem) => some (.arr xs, rem)
      else if c == '\x7b' then
        match skipWs rest with
        | [] => none
        | c2 :: rem =>
          if c2 == '\x7d' then some (.obj [], rem)
          else
            match parseMembers fuel (c2 :: rem) with
            | none => none
            | some (kvs, rem2) => some (.obj kvs, rem2)
      else
        match parseNumberTok (c :: rest) with
        | none => none
        | some (n, rem) => some (.num n, rem)

/-- One or more comma-separated array elements followed by `]`. -/
def parseElems : Nat → List Char → Option (List Json × List Char)
  | 0, _ => none
  | Nat.succ fuel, s =>
    match parseValue fuel s with
    | none => none
    | some (v, rem) =>
      match skipWs rem with
      | ']' :: rem2 => some ([v], rem2)
      | ',' :: rem2 =>
        match parseElems fuel rem2 with
        | none => none
        | some (vs, rem3) => some (v :: vs, rem3)
      | _ => none

/-- One or more comma-separated `"key": value` members followed by the
closing brace. -/
def parseMembers : Nat → List Char → Option (List (String × Json) × List Char)
  | 0, _ => none
  | Nat.succ fuel, s =>
    match skipWs s with
    | '"' :: rest =>
      match parseStringBody (rest.length + 1) rest with
      | none => none
      | some (kcs, rem) =>
        match skipWs rem with
        | ':' :: rem2 =>
          match parseValue fuel rem2 with
          | none => none
          | some (v, rem3) =>
            match skipWs rem3 with
            | c :: rem4 =>
              if c == '\x7d' then some ([(String.mk kcs, v)], rem4)
              else if c == ',' then
                match parseMembers fuel rem4 with
                | none => none
                | some (kvs, rem5) => some ((String.mk kcs, v) :: kvs, rem5)
              else none
            | [] => none
        | _ => none
    | _ => none

end

/-- Model of `json.loads`: parse one value, then require only whitespace to
remain; any failure is a `json.JSONDecodeError`, modelled as `none`. -/
def jsonLoads (s : String) : Option Json :=
  match parseValue (4 * s.data.length + 8) s.data with
  | none => none
  | some (v, rem) => if (skipWs rem).isEmpty then some v else none

example : jsonLoads "5" = some (Json.num 5) := rfl
example : jsonLoads " null " = some Json.null := rfl
example : jsonLoads "[\"tool\"]" = some (Json.arr [Json.str "tool"]) := rfl
example : jsonLoads "\x7b\"tool\": \"x\", \"params\": \x7b\"a\": 1\x7d\x7d" =
    some (Json.obj [("tool", Json.str "x"), ("params", Json.obj [("a", Json.num 1)])]) := rfl
example : jsonLoads "\x7b\"a\":" = none := rfl
example : jsonLoads "not json" = none := rfl
example : jsonLoads "01" = none := rfl
example : jsonLoads "1 2" = none := rfl

/-- String escaping of `json.dumps` with `ensure_ascii=False`: only the
quote, backslash and control characters are escaped. -/
def escapeJsonChar (c : Char) : List Char :=
  if c == '"' then ['\\', '"']
  else if c == '\\' then ['\\', '\\']
  else if c == '\n' then ['\\', 'n']
  else if c == '\x0d' then ['\\', 'r']
  else if c == '\t' then ['\\', 't']
  else if c == '\x08' then ['\\', 'b']
  else if c == '\x0c' then ['\\', 'f']
  else if c.toNat < 32 then
    let hx : Nat → Char := fun n => if n < 10 then Char.ofNat (48 + n) else Char.ofNat (87 + n)
    ['\\', 'u', '0', '0', hx (c.toNat / 16), hx (c.toNat % 16)]
  else [c]

def dumpsStr (s : String) : String :=
  String.mk ('"' :: s.data.foldr (fun c acc => escapeJsonChar c ++ acc) ['"'])

mutual

/-- Model of `json.dumps(data, ensure_ascii=False, default=str)` with the
default separators `", "` and `": "`, as used in `DHSAtlasAgent.chat`
(main_agent.py line 282). -/
def dumps : Json → String
  | .null => "null"
  | .bool true => "true"
  | .bool false => "false"
  | .num n => toString n
  | .str s => dumpsStr s
  | .arr xs => "[" ++ dumpsElems xs ++ "]"
  | .obj kvs => "\x7b" ++ dumpsMembers kvs ++ "\x7d"

def dumpsElems : List Json → String
  | [] => ""
  | [x] => dumps x
  | x :: y :: rest => dumps x ++ ", " ++ dumpsElems (y :: rest)

def dumpsMembers : List (String × Json) → String
  | [] => ""
  | [(k, v)] => dumpsStr k ++ ": " ++ dumps v
  | (k, v) :: m :: rest => dumpsStr k ++ ": " ++ dumps v ++ ", " ++ dumpsMembers (m :: rest)

end

example : dumps (Json.obj [("a", Json.num 1), ("b", Json.arr [Json.null, Json.bool true])]) =
    "\x7b\"a\": 1, \"b\": [null, true]\x7d" := rfl
example : dumps (Json.str "x\"y") = "\"x\\\"y\"" := rfl

/-- Python `str()` of a JSON-decoded value, as interpolated by the f-strings
in `chat` and `_execute_tool`.  Lists and dicts are placeholders: every use
in the embedded code is guarded by Python hashability (a list or dict tool
name raises before any message is built). -/
def pyStr : Json → String
  | .null => "None"
  | .bool true => "True"
  | .bool false => "False"
  | .num n => toString n
  | .str s => s
  | .arr _ => "<list>"
  | .obj _ => "<dict>"

/-! ## `DHSAtlasAgent._parse_tool_calls` (main_agent.py lines 172-186) -/

/-- A Python exception escaping the embedded code. -/
inductive PyErr where
  | typeError (msg : String)
  | attributeError (msg : String)
deriving DecidableEq, Repr

/-- Capture groups of `re.findall(r'```tool_call\s*\n?(.*?)\n?```', text,
re.DOTALL)`.  Each leftmost match starts at an occurrence of
`"```tool_call"`; the greedy `\s*` absorbs all following whitespace (making
the `\n?` after it vacuous); the lazy group then runs to the first `"```"`,
excluding one newline immediately before it; scanning resumes after that
closing fence.  An opening fence with no later `"```"` never matches (and
then no later opening fence can match either, since it would itself start
with `"```"`). -/
def findBlocks : Nat → List Char → List (List Char)
  | 0, _ => []
  | Nat.succ fuel, s =>
    match splitOnFirst "```tool_call".data s with
    | none => []
    | some (_, rest) =>
      let rest2 := rest.dropWhile isPySpace
      match splitOnFirst "```".data rest2 with
      | none => []
      | some (body, post) =>
        let body2 := if body.getLast? = some '\n' then body.dropLast else body
        body2 :: findBlocks fuel post

/-- Python `'tool' in call` on a JSON-decoded value: key membership for
dicts, element equality for lists, substring test for strings, and a
`TypeError` for non-iterable values — the latter is NOT caught by the
`except json.JSONDecodeError` clause in `_parse_tool_calls`. -/
def containsTool : Json → Except PyErr Bool
  | .obj kvs => .ok (kvs.any (fun kv => kv.1 == "tool"))
  | .arr xs =>
    .ok (xs.any (fun x => match x with | .str s => s == "tool" | _ => false))
  | .str s => .ok (splitOnFirst "tool".data s.data).isSome
  | .num _ => .error (.typeError "argument of type \x27int\x27 is not iterable")
  | .bool _ => .error (.typeError "argument of type \x27bool\x27 is not iterable")
  | .null => .error (.typeError "argument of type \x27NoneType\x27 is not iterable")

/-- Per-block loop body of `_parse_tool_calls`: `json.loads` failures are
silently skipped; the membership test may raise. -/
def collectCalls : List (List Char) → Except PyErr (List Json)
  | [] => .ok []
  | b :: bs =>
    match jsonLoads (String.mk (pyStrip b)) with
    | none => collectCalls bs
    | some call =>
      match containsTool call with
      | .error e => .error e
      | .ok true =>
        match collectCalls bs with
        | .error e => .error e
        | .ok rest => .ok (call :: rest)
      | .ok false => collectCalls bs

/-- Model of `DHSAtlasAgent._parse_tool_calls`. -/
def parse_tool_calls (response : String) : Except PyErr (List Json) :=
  collectCalls (findBlocks (response.data.length + 1) response.data)

example : parse_tool_calls "no blocks here" = .ok [] := rfl
example : parse_tool_calls "```tool_call\n\x7b\"tool\": \"x\", \"params\": \x7b\"a\": 1\x7d\x7d\n```" =
    .ok [Json.obj [("tool", Json.str "x"), ("params", Json.obj [("a", Json.num 1)])]] := rfl
example : parse_tool_calls "```tool_call\nnot json\n```" = .ok [] := rfl
example : parse_tool_calls "```tool_call\n\x7b\"a\": 1\x7d\n```" = .ok [] := rfl
example : parse_tool_calls "```tool_call\n5\n```" =
    .error (PyErr.typeError "argument of type \x27int\x27 is not iterable") := rfl
example : parse_tool_calls "```tool_call\n[\"tool\"]\n```" = .ok [Json.arr [Json.str "tool"]] := rfl
example : parse_tool_calls
    "a ```tool_call\n\x7b\"tool\": \"x\"\x7d\n``` b ```tool_call\n\x7b\"tool\": \"y\"\x7d\n``` c" =
    .ok [Json.obj [("tool", Json.str "x")], Json.obj [("tool", Json.str "y")]] := rfl

/-! ## `DHSAtlasAgent._execute_tool` and the chat loop (main_agent.py
lines 188-197 and 231-299) -/

/-- A registered tool handler: receives the `params` mapping expanded as
keyword arguments; a raised `Exception` is modelled as `.error str(e)`. -/
def THandler : Type := List (String × Json) → Except String Json

/-- The outcome dict built by `_execute_tool`: either
`\x7b"success": True, "data": result\x7d` or `\x7b"error": str(e)\x7d`. -/
inductive ToolResult where
  | success (data : Json) : ToolResult
  | error (msg : String) : ToolResult

/-- The entry `\x7b"tool": tool_name, "result": result\x7d` appended to
`tool_results` for every dispatched call. -/
structure ToolResultEntry where
  tool : Json
  result : ToolResult

/-- Python hashability of a JSON-decoded value: lists and dicts are
unhashable, so `tool_name not in self._tools` raises `TypeError` on them —
outside the `try` block of `_execute_tool`. -/
def hashable : Json → Bool
  | .arr _ => false
  | .obj _ => false
  | _ => true

/-- The `self._tools` registry: function name to handler, in
registration order (`\x7bfunc.__name__: func for func in ALL_TOOLS\x7d`). -/
def ToolRegistry : Type := List (String × THandler)

def lookupTool (env : ToolRegistry) (name : String) : Option THandler :=
  (env.find? (fun t => t.1 == name)).map (fun t => t.2)

/-- Model of `DHSAtlasAgent._execute_tool`.  The membership test on
`self._tools` raises for unhashable names; every other path returns a
result dict: unregistered name → error dict, handler exception → error
dict with `str(e)`, success → success dict. -/
def execute_tool (env : ToolRegistry) (tool_name : Json) (params : Json) :
    Except PyErr ToolResult :=
  if hashable tool_name then
    match (match tool_name with | .str s => lookupTool env s | _ => none) with
    | none => .ok (.error ("工具不存在: " ++ pyStr tool_name))
    | some h =>
      match params with
      | .obj kvs =>
        match h kvs with
        | .ok v => .ok (.success v)
        | .error e => .ok (.error e)
      | _ => .ok (.error "argument after ** must be a mapping")
  else .error (.typeError "unhashable type")

/-- Python truthiness of `result.get("error")`: the success dict has no
`error` key (`None`, falsy); an empty message string is also falsy. -/
def resultErrorTruthy : ToolResult → Bool
  | .success _ => false
  | .error msg => !(msg == "")

/-- Python `result.get("data")`: `None` on the error dict. -/
def resultData : ToolResult → Json
  | .success d => d
  | .error _ => Json.null

/-- `result['error']` where the key is known present. -/
def resultErrorMsg : ToolResult → String
  | .success _ => ""
  | .error msg => msg

/-- The per-result line built in `chat` (main_agent.py lines 277-285): an
error line when `result.get("error")` is truthy, otherwise the serialized
data, truncated to 2000 characters with the `...(已截断)` marker. -/
def renderResult (tool_name : Json) (r : ToolResult) : String :=
  if resultErrorTruthy r then
    "工具 " ++ pyStr tool_name ++ " 错误: " ++ resultErrorMsg r
  else
    let dataStr := dumps (resultData r)
    let dataStr := if 2000 < dataStr.length then dataStr.take 2000 ++ "...(已截断)" else dataStr
    "工具 " ++ pyStr tool_name ++ " 结果:\n" ++ dataStr

/-- `call.get('tool')` of a parsed call (default `None`). -/
def callName (call : Json) : Json :=
  match call with
  | .obj kvs => (objGet kvs "tool").getD Json.null
  | _ => Json.null

/-- `call.get('params', \x7b\x7d)` of a parsed call. -/
def callParams (call : Json) : Json :=
  match call with
  | .obj kvs => (objGet kvs "params").getD (Json.obj [])
  | _ => Json.obj []

/-- The dispatch loop body of `chat` (lines 268-285): for each parsed call,
read name and params via `.get` (an `AttributeError` for the non-dict
values the parser lets through), dispatch, accumulate the result entry and
the formatted line. -/
def processCalls (env : ToolRegistry) :
    List Json → Except PyErr (List ToolResultEntry × List String)
  | [] => .ok ([], [])
  | call :: rest =>
    match call with
    | .obj kvs =>
      match execute_tool env (callName (.obj kvs)) (callParams (.obj kvs)) with
      | .error e => .error e
      | .ok r =>
        match processCalls env rest with
        | .error e => .error e
        | .ok (es, ts) =>
          .ok (⟨callName (.obj kvs), r⟩ :: es, renderResult (callName (.obj kvs)) r :: ts)
    | .arr _ => .error (.attributeError "\x27list\x27 object has no attribute \x27get\x27")
    | .str _ => .error (.attributeError "\x27str\x27 object has no attribute \x27get\x27")
    | _ => .error (.attributeError "object has no attribute \x27get\x27")

/-- The total per-call dispatch outcome; `processCalls` only succeeds when
every call is a dict with a hashable name, in which case each produced
entry equals `dispatchedEntry` of the call. -/
def dispatchedEntry (env : ToolRegistry) (call : Json) : ToolResultEntry :=
  match execute_tool env (callName call) (callParams call) with
  | .ok r => ⟨callName call, r⟩
  | .error _ => ⟨callName call, .error ""⟩

/-- A conversation turn in the OpenAI message format. -/
structure Message where
  role : String
  content : String

/-- The completion service as an oracle: full transcript in, raw completion
text out.  `_call_llm` post-processes the raw text with
`_filter_think_tags` before returning it. -/
def Oracle : Type := List Message → String

def callLLM (oracle : Oracle) (msgs : List Message) : String :=
  filterThinkTags (oracle msgs)

/-- The final value of `chat`. -/
structure ChatResponse where
  content : String
  session_id : String
  tool_results : Option (List ToolResultEntry)

/-- Result of the loop together with ghost observations of its observable
side effects: the number of completion-service calls made, the calls parsed
in each dispatching round, the result entries of each dispatching round,
and whether the round limit was hit. -/
structure ChatOut where
  resp : ChatResponse
  llmCalls : Nat
  roundCalls : List (List Json)
  perRound : List (List ToolResultEntry)
  limited : Bool

/-- The fixed round-limit reply (main_agent.py line 296). -/
def timeoutContent : String := "处理超时，请简化问题后重试。"

/-- The folded user turn carrying the round's tool output (line 291). -/
def foldText (ts : List String) : String :=
  "工具执行结果:\n\n" ++ String.intercalate "\n\n" ts ++
    "\n\n请根据结果用中文回答用户问题，使用 Markdown 表格展示数据。"

/-- The `for round_num in range(max_rounds)` loop of `chat` (lines
250-299), fuel-indexed by the remaining rounds.  Fuel 0 is the fall-through
to the round-limit response; each round calls the completion service once,
parses, either returns the text (with `tool_results or None`) or dispatches
every call and folds the formatted results into the transcript. -/
def chatLoop (oracle : Oracle) (env : ToolRegistry) (sid : String) :
    Nat → List Message → List ToolResultEntry → Except PyErr ChatOut
  | 0, _, acc => .ok ⟨⟨timeoutContent, sid, some acc⟩, 0, [], [], true⟩
  | Nat.succ n, msgs, acc =>
    let response := callLLM oracle msgs
    match parse_tool_calls response with
    | .error e => .error e
    | .ok [] =>
      .ok ⟨⟨response, sid, if acc.isEmpty then none else some acc⟩, 1, [], [], false⟩
    | .ok (c :: cs) =>
      match processCalls env (c :: cs) with
      | .error e => .error e
      | .ok (entries, texts) =>
        match chatLoop oracle env sid n
            (msgs ++ [⟨"assistant", response⟩, ⟨"user", foldText texts⟩])
            (acc ++ entries) with
        | .error e => .error e
        | .ok out =>
          .ok ⟨out.resp, out.llmCalls + 1, (c :: cs) :: out.roundCalls,
               entries :: out.perRound, out.limited⟩

/-- `max_rounds = 5` (main_agent.py line 248). -/
def max_rounds : Nat := 5

/-- The agent state used by `chat` and `clear_session`: the assembled
system prompt, the tool registry and the session store. -/
structure Agent where
  system_prompt : String
  tools : ToolRegistry
  sessions : List (String × List Message)

/-- Model of `DHSAtlasAgent.chat` with its ghost observations: initial
transcript `[system, user]`, then the round loop. -/
def chatAux (a : Agent) (oracle : Oracle) (message : String) (session_id : String) :
    Except PyErr ChatOut :=
  chatLoop oracle a.tools session_id max_rounds
    [⟨"system", a.system_prompt⟩, ⟨"user", message⟩] []

/-- Model of `DHSAtlasAgent.chat`: the value returned to the caller. -/
def chat (a : Agent) (oracle : Oracle) (message : String) (session_id : String) :
    Except PyErr ChatResponse :=
  (chatAux a oracle message session_id).map (fun out => out.resp)

/-- Model of `DHSAtlasAgent.clear_session` (main_agent.py lines 318-321):
delete the session key when present, otherwise do nothing.  The session
dict is modelled as an association list. -/
def clear_session (a : Agent) (session_id : String) : Agent :=
  if a.sessions.any (fun kv => kv.1 == session_id) then
    { a with sessions := a.sessions.filter (fun kv => !(kv.1 == session_id)) }
  else a

/-! ## `query_client_quotation` (tools/finance/quotation_tools.py lines
42-95) over the `models/` data-access layer.  MongoDB collections are
modelled as lists in collection order; `find_one` is the first match;
`ObjectId` values are abstracted to their string form (no claim involves a
malformed ObjectId string). -/

/-- A client record: the fields `query_client_quotation` reads, plus its
`to_dict()` rendering as an opaque payload. -/
structure ClientRec where
  name : String
  quotation_id : Option String
  dict : Json

/-- A quotation record: its id, `selected_services`, and `to_dict()`. -/
structure QuotationRec where
  qid : String
  selected_services : List String
  dict : Json

/-- A service-pricing record: its id and `to_dict()`. -/
structure ServiceRec where
  sid : String
  dict : Json

/-- The document store visible to the finance tools. -/
structure MongoDB where
  clients : List ClientRec
  quotations : List QuotationRec
  servicepricings : List ServiceRec

/-- `ClientModel.find_by_name`: `find_one(\x7b"name": name\x7d)`. -/
def ClientModel_find_by_name (db : MongoDB) (name : String) : Option ClientRec :=
  db.clients.find? (fun c => c.name == name)

/-- `QuotationModel.find_by_id`: `find_one(\x7b"_id": to_object_id(id)\x7d)`. -/
def QuotationModel_find_by_id (db : MongoDB) (qid : String) : Option QuotationRec :=
  db.quotations.find? (fun q => q.qid == qid)

/-- `ServicePricingModel.find_by_ids`: falsy ids are dropped
(`for id in ids if id`), then a `$in` query returns the matching records in
collection order. -/
def ServicePricingModel_find_by_ids (db : MongoDB) (ids : List String) : List ServiceRec :=
  let object_ids := ids.filter (fun i => !(i == ""))
  db.servicepricings.filter (fun s => object_ids.contains s.sid)

/-- Python truthiness of an optional string (`if not client.quotation_id`):
`None` and the empty string are falsy. -/
def truthyOptStr : Option String → Bool
  | none => false
  | some s => !(s == "")

/-- The result dict of `query_client_quotation`. -/
structure QCQResult where
  client : Option Json
  quotation : Option Json
  services : List Json
  total_services : Nat
  message : Option String

/-- Model of `query_client_quotation`: chain client → quotation-by-id →
services-by-id-list, stopping with a message at the first missing link;
an empty `selected_services` list skips the service lookup silently. -/
def query_client_quotation (db : MongoDB) (client_name : String) : QCQResult :=
  match ClientModel_find_by_name db client_name with
  | none => ⟨none, none, [], 0, some ("未找到客户: " ++ client_name)⟩
  | some client =>
    if !(truthyOptStr client.quotation_id) then
      ⟨some client.dict, none, [], 0, some "该客户没有关联的报价单"⟩
    else
      let qid := client.quotation_id.getD ""
      match QuotationModel_find_by_id db qid with
      | none => ⟨some client.dict, none, [], 0, some ("报价单不存在 (ID: " ++ qid ++ ")")⟩
      | some q =>
        if !(q.selected_services.isEmpty) then
          let services := ServicePricingModel_find_by_ids db q.selected_services
          ⟨some client.dict, some q.dict, services.map (fun s => s.dict),
            services.length, none⟩
        else
          ⟨some client.dict, some q.dict, [], 0, none⟩

/-! ## Supporting lemmas -/

/-- A parsed call that dispatches without raising: a JSON dict whose
`tool` value is hashable. -/
def goodCall : Json → Bool
  | .obj kvs => hashable (callName (.obj kvs))
  | _ => false

theorem execute_tool_isOk_of_hashable (env : ToolRegistry) (name params : Json)
    (h : hashable name = true) : ∃ r, execute_tool env name params = .ok r := by
  unfold execute_tool
  rw [h, if_pos rfl]
  split
  · exact ⟨_, rfl⟩
  · split
    · split
      · exact ⟨_, rfl⟩
      · exact ⟨_, rfl⟩
    · exact ⟨_, rfl⟩

theorem processCalls_ok_map (env : ToolRegistry) :
    ∀ (cs : List Json) (es : List ToolResultEntry) (ts : List String),
      processCalls env cs = .ok (es, ts) → es = cs.map (dispatchedEntry env) := by
  intro cs
  induction cs with
  | nil =>
    intro es ts h
    simp only [processCalls, Except.ok.injEq, Prod.mk.injEq] at h
    simp [← h.1]
  | cons c rest ih =>
    intro es ts h
    cases c with
    | obj kvs =>
      rcases hx : execute_tool env (callName (Json.obj kvs)) (callParams (Json.obj kvs))
        with e | r
      · simp only [processCalls, hx] at h
        exact Except.noConfusion h
      · rcases hrest : processCalls env rest with e2 | ⟨es', ts'⟩
        · simp only [processCalls, hx, hrest] at h
          exact Except.noConfusion h
        · simp only [processCalls, hx, hrest, Except.ok.injEq, Prod.mk.injEq] at h
          obtain ⟨h1, h2⟩ := h
          subst h1
          simp only [List.map_cons, dispatchedEntry, hx]
          exact congrArg _ (ih es' ts' hrest)
    | null => exact absurd h (by simp [processCalls])
    | bool b => exact absurd h (by simp [processCalls])
    | num n => exact absurd h (by simp [processCalls])
    | str s => exact absurd h (by simp [processCalls])
    | arr xs => exact absurd h (by simp [processCalls])

theorem processCalls_ok_of_good (env : ToolRegistry) :
    ∀ cs : List Json, (∀ c ∈ cs, goodCall c = true) →
      ∃ r, processCalls env cs = .ok r := by
  intro cs
  induction cs with
  | nil => exact fun _ => ⟨([], []), rfl⟩
  | cons c rest ih =>
    intro hg
    have hc := hg c (by simp)
    cases c with
    | obj kvs =>
      obtain ⟨r, hr⟩ := execute_tool_isOk_of_hashable env (callName (.obj kvs))
        (callParams (.obj kvs)) (by simpa [goodCall] using hc)
      obtain ⟨⟨es, ts⟩, hrest⟩ := ih (fun x hx => hg x (by simp [hx]))
      exact ⟨(⟨callName (.obj kvs), r⟩ :: es, renderResult (callName (.obj kvs)) r :: ts),
        by simp only [processCalls]; rw [hr, hrest]⟩
    | null => simp [goodCall] at hc
    | bool b => simp [goodCall] at hc
    | num n => simp [goodCall] at hc
    | str s => simp [goodCall] at hc
    | arr xs => simp [goodCall] at hc

/-- Loop invariant of `chatLoop`: whenever the loop returns normally, the
ghost observations account for the response.  The completion service is
called at most once per remaining round; every dispatching round
contributes its parsed calls (a nonempty list) and exactly the entries
obtained by dispatching them in parse order; the returned `tool_results`
is the accumulator extended round by round (`None` for an empty list on
the natural exit, always attached on the round-limit exit). -/
theorem chatLoop_spec (oracle : Oracle) (env : ToolRegistry) (sid : String) :
    ∀ (n : Nat) (msgs : List Message) (acc : List ToolResultEntry) (out : ChatOut),
      chatLoop oracle env sid n msgs acc = .ok out →
      out.llmCalls ≤ n ∧
      out.perRound = out.roundCalls.map (fun cs => cs.map (dispatchedEntry env)) ∧
      (∀ cs ∈ out.roundCalls, cs ≠ []) ∧
      out.resp.session_id = sid ∧
      (out.limited = true →
        out.resp.content = timeoutContent ∧ out.llmCalls = n ∧
        out.roundCalls.length = n ∧
        out.resp.tool_results = some (acc ++ out.perRound.flatten)) ∧
      (out.limited = false →
        out.llmCalls = out.roundCalls.length + 1 ∧
        out.resp.tool_results =
          (if (acc ++ out.perRound.flatten).isEmpty then none
           else some (acc ++ out.perRound.flatten))) := by
  intro n
  induction n with
  | zero =>
    intro msgs acc out h
    simp only [chatLoop, Except.ok.injEq] at h
    subst h
    refine ⟨Nat.le_refl 0, rfl, by simp, rfl, fun _ => ⟨rfl, rfl, rfl, by simp⟩, by simp⟩
  | succ n ih =>
    intro msgs acc out h
    rcases hp : parse_tool_calls (callLLM oracle msgs) with e | calls
    · simp only [chatLoop, hp] at h
      exact Except.noConfusion h
    · rcases calls with _ | ⟨c, cs⟩
      · simp only [chatLoop, hp, Except.ok.injEq] at h
        subst h
        refine ⟨by simp, rfl, by simp, rfl, by simp, fun _ => ⟨rfl, ?_⟩⟩
        simp only [List.flatten_nil, List.append_nil]
      · rcases hq : processCalls env (c :: cs) with e | ⟨entries, texts⟩
        · simp only [chatLoop, hp, hq] at h
          exact Except.noConfusion h
        · rcases hr : chatLoop oracle env sid n
              (msgs ++ [⟨"assistant", callLLM oracle msgs⟩, ⟨"user", foldText texts⟩])
              (acc ++ entries) with e | out'
          · simp only [chatLoop, hp, hq, hr] at h
            exact Except.noConfusion h
          · simp only [chatLoop, hp, hq, hr, Except.ok.injEq] at h
            subst h
            obtain ⟨ih1, ih2, ih3, ih4, ih5, ih6⟩ := ih _ _ _ hr
            have hmap := processCalls_ok_map env (c :: cs) entries texts hq
            refine ⟨by simpa using Nat.add_le_add_right ih1 1, ?_, ?_, ih4, ?_, ?_⟩
            · simp only [List.map_cons, ← hmap, ih2]
            · intro cs2 hcs2
              rcases List.mem_cons.mp hcs2 with h1 | h1
              · subst h1; simp
              · exact ih3 cs2 h1
            · intro hlim
              obtain ⟨hc1, hc2, hc3, hc4⟩ := ih5 hlim
              refine ⟨hc1, by simp [hc2], by simp [hc3], ?_⟩
              rw [hc4]
              simp [List.append_assoc]
            · intro hlim
              obtain ⟨hc1, hc2⟩ := ih6 hlim
              refine ⟨by simp [hc1], ?_⟩
              rw [hc2]
              simp only [List.flatten_cons, ← List.append_assoc]

/-- When every completion-service response parses to a nonempty list of
well-formed calls, the loop consumes all its fuel and exits limited. -/
theorem chatLoop_reaches_limit (oracle : Oracle) (env : ToolRegistry) (sid : String)
    (H : ∀ msgs : List Message, ∃ cs : List Json,
      parse_tool_calls (callLLM oracle msgs) = .ok cs ∧ cs ≠ [] ∧
        ∀ c ∈ cs, goodCall c = true) :
    ∀ (n : Nat) (msgs : List Message) (acc : List ToolResultEntry),
      ∃ out : ChatOut,
        chatLoop oracle env sid n msgs acc = .ok out ∧
        out.limited = true ∧ out.llmCalls = n := by
  intro n
  induction n with
  | zero => exact fun msgs acc => ⟨_, rfl, rfl, rfl⟩
  | succ n ih =>
    intro msgs acc
    obtain ⟨cs, hp, hne, hgood⟩ := H msgs
    rcases cs with _ | ⟨c, cs⟩
    · exact absurd rfl hne
    · obtain ⟨⟨entries, texts⟩, hq⟩ := processCalls_ok_of_good env (c :: cs) hgood
      obtain ⟨out', hr, hlim, hn⟩ := ih
        (msgs ++ [⟨"assistant", callLLM oracle msgs⟩, ⟨"user", foldText texts⟩])
        (acc ++ entries)
      refine ⟨⟨out'.resp, out'.llmCalls + 1, (c :: cs) :: out'.roundCalls,
        entries :: out'.perRound, out'.limited⟩, ?_, by simpa using hlim, by simp [hn]⟩
      simp only [chatLoop, hp, hq, hr]

/-! ## Claim theorems -/

/-- An agent with an empty tool registry and no sessions. -/
def emptyAgent : Agent := ⟨"prompt", [], []⟩

/-- A completion service that always answers with a fenced `tool_call`
block whose body is the integer literal `5` — valid JSON, not an object. -/
def integerBlockOracle : Oracle := fun _ => "```tool_call\n5\n```"

/-- C1: the claim states that for every completion-service oracle and every
input message, `chat` terminates and reaches DONE (returns a
`ChatResponse`) within `max_rounds` completion-service calls.  The code
violates the "reaches DONE" part: when the completion service answers with
a `tool_call` block whose body is the JSON value `5`, the membership test
`'tool' in call` inside `_parse_tool_calls` raises a `TypeError` that the
`except json.JSONDecodeError` clause does not catch, so `chat` raises
instead of returning.  This theorem evaluates the model at that failing
input.  (The bounded-call-count part of the claim is real: see the
`chatLoop_spec` invariant, whose `llmCalls ≤ n` conjunct bounds the
completion-service calls by `max_rounds` on every normal return.) -/
theorem chat_raises_on_integer_block :
    chat emptyAgent integerBlockOracle "查询报价" "s1" =
      .error (PyErr.typeError "argument of type \x27int\x27 is not iterable") := rfl

/-- C2: the claim states that a block body is accepted as a request only if
it parses as a single JSON object with a `tool` key, and that every other
block contributes nothing.  The code violates both directions: a body that
is the JSON array `["tool"]` is accepted as a "request" (Python list
membership makes `'tool' in call` true), and a body that is the JSON value
`5` raises `TypeError` instead of contributing nothing. -/
theorem parse_tool_calls_nonobject_bug :
    parse_tool_calls "```tool_call\n[\"tool\"]\n```" = .ok [Json.arr [Json.str "tool"]] ∧
    parse_tool_calls "```tool_call\n5\n```" =
      .error (PyErr.typeError "argument of type \x27int\x27 is not iterable") :=
  ⟨rfl, rfl⟩

/-- C3: for every registry, tool-name string and parameter mapping, the
dispatcher `_execute_tool` returns a result dict (never raises): an
unregistered name yields the error dict naming the tool, a handler
exception yields the error dict carrying the exception message, and a
successful handler call yields the success dict with the handler value. -/
theorem execute_tool_never_raises (env : ToolRegistry) (name : String)
    (params : List (String × Json)) :
    execute_tool env (Json.str name) (Json.obj params) =
      .ok (match lookupTool env name with
           | none => ToolResult.error ("工具不存在: " ++ name)
           | some h =>
             match h params with
             | .ok v => ToolResult.success v
             | .error e => ToolResult.error e) := by
  unfold execute_tool
  rw [show hashable (Json.str name) = true from rfl, if_pos rfl]
  cases hl : lookupTool env name with
  | none => simp [hl, pyStr]
  | some h =>
    simp only [hl]
    cases hh : h params with
    | ok v => simp [hh]
    | error e => simp [hh]

/-- C4: if every completion-service response parses to at least one
well-formed tool call, `chat` stops after exactly `max_rounds` rounds
(one completion-service call each) and returns the fixed simplify-request
apology together with all tool results accumulated over every round
(at least one per round, rounds in order). -/
theorem chat_round_limit_exhaustion (a : Agent) (oracle : Oracle) (message sid : String)
    (H : ∀ msgs : List Message, ∃ cs : List Json,
      parse_tool_calls (callLLM oracle msgs) = .ok cs ∧ cs ≠ [] ∧
        ∀ c ∈ cs, goodCall c = true) :
    ∃ out : ChatOut,
      chatAux a oracle message sid = .ok out ∧
      out.llmCalls = max_rounds ∧
      out.resp.content = timeoutContent ∧
      out.resp.session_id = sid ∧
      out.resp.tool_results = some out.perRound.flatten ∧
      out.perRound.length = max_rounds ∧
      (∀ es ∈ out.perRound, es ≠ []) := by
  obtain ⟨out, hr, hlim, hn⟩ := chatLoop_reaches_limit oracle a.tools sid H max_rounds
    [⟨"system", a.system_prompt⟩, ⟨"user", message⟩] []
  obtain ⟨i1, i2, i3, i4, i5, i6⟩ := chatLoop_spec oracle a.tools sid max_rounds _ _ _ hr
  obtain ⟨c1, c2, c3, c4⟩ := i5 hlim
  refine ⟨out, hr, hn, c1, i4, by simpa using c4, ?_, ?_⟩
  · rw [i2, List.length_map, c3]
  · intro es hes
    rw [i2] at hes
    obtain ⟨cs, hcs, rfl⟩ := List.mem_map.mp hes
    simpa using i3 cs hcs

/-- The registry and agent used to witness the conversation-loop claims:
one registered tool `t` whose handler returns `null`. -/
def envT : ToolRegistry := [("t", fun _ => .ok Json.null)]

def agentT : Agent := ⟨"prompt", envT, []⟩

/-- A completion service that always asks for tool `t`. -/
def alwaysToolOracle : Oracle := fun _ => "```tool_call\n\x7b\"tool\": \"t\"\x7d\n```"

theorem chat_round_limit_exhaustion_witness :
    ∃ out : ChatOut,
      chatAux agentT alwaysToolOracle "你好" "s1" = .ok out ∧
      out.llmCalls = max_rounds ∧
      out.resp.content = timeoutContent ∧
      out.resp.session_id = "s1" ∧
      out.resp.tool_results = some out.perRound.flatten ∧
      out.perRound.length = max_rounds ∧
      (∀ es ∈ out.perRound, es ≠ []) :=
  chat_round_limit_exhaustion agentT alwaysToolOracle "你好" "s1"
    (fun _ => ⟨[Json.obj [("tool", Json.str "t")]], rfl, by simp,
      fun c hc => by rw [List.mem_singleton.mp hc]; rfl⟩)

/-- C5: if the first completion-service response parses to zero tool-call
requests, `chat` makes exactly one completion-service call and returns
that post-processed text as `content`, with `tool_results` absent
(`None`, not an empty list). -/
theorem chat_single_call_no_tools (a : Agent) (oracle : Oracle) (message sid : String)
    (h : parse_tool_calls
      (callLLM oracle [⟨"system", a.system_prompt⟩, ⟨"user", message⟩]) = .ok []) :
    chatAux a oracle message sid =
      .ok ⟨⟨callLLM oracle [⟨"system", a.system_prompt⟩, ⟨"user", message⟩], sid, none⟩,
        1, [], [], false⟩ := by
  unfold chatAux max_rounds
  simp only [chatLoop, h, List.isEmpty_nil, if_true]

/-- A completion service that answers with prose only. -/
def proseOracle : Oracle := fun _ => "你好，请问需要什么帮助？"

theorem chat_single_call_no_tools_witness :
    chatAux agentT proseOracle "你好" "s1" =
      .ok ⟨⟨callLLM proseOracle [⟨"system", agentT.system_prompt⟩, ⟨"user", "你好"⟩],
        "s1", none⟩, 1, [], [], false⟩ :=
  chat_single_call_no_tools agentT proseOracle "你好" "s1" rfl

/-- C10: whenever `chat` returns, the accumulated `tool_results` holds
exactly one entry per dispatched call — each dispatching round contributes
the entries obtained by dispatching its parsed calls in parse order, rounds
in order — reported as `None` when no call was ever dispatched; in the
round-limit case the list carries `max_rounds` rounds, each nonempty. -/
theorem chat_tool_results_accounting (a : Agent) (oracle : Oracle) (message sid : String)
    (out : ChatOut) (h : chatAux a oracle message sid = .ok out) :
    out.perRound = out.roundCalls.map (fun cs => cs.map (dispatchedEntry a.tools)) ∧
    (∀ cs ∈ out.roundCalls, cs ≠ []) ∧
    (out.limited = false →
      out.resp.tool_results =
        (if out.perRound.flatten.isEmpty then none else some out.perRound.flatten)) ∧
    (out.limited = true →
      out.resp.tool_results = some out.perRound.flatten ∧
      out.perRound.length = max_rounds ∧
      (∀ es ∈ out.perRound, es ≠ [])) := by
  unfold chatAux at h
  obtain ⟨i1, i2, i3, i4, i5, i6⟩ := chatLoop_spec oracle a.tools sid max_rounds _ _ _ h
  refine ⟨i2, i3, fun hf => by simpa using (i6 hf).2, fun ht => ?_⟩
  obtain ⟨c1, c2, c3, c4⟩ := i5 ht
  refine ⟨by simpa using c4, ?_, ?_⟩
  · rw [i2, List.length_map, c3]
  · intro es hes
    rw [i2] at hes
    obtain ⟨cs, hcs, rfl⟩ := List.mem_map.mp hes
    simpa using i3 cs hcs

/-- The concrete `ChatOut` of a prose-only exchange, for the C10 witness. -/
def proseChatOut : ChatOut :=
  ⟨⟨callLLM proseOracle [⟨"system", agentT.system_prompt⟩, ⟨"user", "你好"⟩],
    "s1", none⟩, 1, [], [], false⟩

theorem chat_tool_results_accounting_witness :
    chatAux agentT proseOracle "你好" "s1" = .ok proseChatOut ∧
    (proseChatOut.perRound =
      proseChatOut.roundCalls.map (fun cs => cs.map (dispatchedEntry agentT.tools)) ∧
    (∀ cs ∈ proseChatOut.roundCalls, cs ≠ []) ∧
    (proseChatOut.limited = false →
      proseChatOut.resp.tool_results =
        (if proseChatOut.perRound.flatten.isEmpty then none
         else some proseChatOut.perRound.flatten)) ∧
    (proseChatOut.limited = true →
      proseChatOut.resp.tool_results = some proseChatOut.perRound.flatten ∧
      proseChatOut.perRound.length = max_rounds ∧
      (∀ es ∈ proseChatOut.perRound, es ≠ []))) :=
  ⟨rfl, chat_tool_results_accounting agentT proseOracle "你好" "s1" proseChatOut rfl⟩

/-- A 2100-character message, longer than the 2000-character budget. -/
def longErrMsg : String := String.mk (List.replicate 2100 'a')

set_option maxRecDepth 40000 in
/-- C6 counterexample: the claim states that EVERY tool invocation result
whose serialized form exceeds the 2000-character budget is truncated to the
budget with a truncation marker before being folded into the next user
turn.  Error results are never truncated by the code: a 2100-character
error message is folded verbatim into a 2109-character line whose last
character is still `a` (no `...(已截断)` marker). -/
theorem render_error_line_not_truncated :
    renderResult (Json.str "t") (ToolResult.error longErrMsg) =
      "工具 t 错误: " ++ longErrMsg ∧
    ("工具 t 错误: " ++ longErrMsg).length = 2109 ∧
    (renderResult (Json.str "t") (ToolResult.error longErrMsg)).data.getLast? = some 'a' :=
  ⟨rfl, rfl, rfl⟩

/-- C6 amended: during folding, a SUCCESSFUL result whose serialized data
exceeds the 2000-character budget is truncated to the budget with the
truncation marker appended, and within-budget data is included unmodified;
an error result is folded as an error line carrying the message
untruncated (an empty message renders as a success line with `null`
data). -/
theorem render_fold_truncation (name : Json) (data : Json) (msg : String) :
    renderResult name (ToolResult.success data) =
      "工具 " ++ pyStr name ++ " 结果:\n" ++
        (if 2000 < (dumps data).length then (dumps data).take 2000 ++ "...(已截断)"
         else dumps data) ∧
    renderResult name (ToolResult.error msg) =
      (if msg = "" then "工具 " ++ pyStr name ++ " 结果:\n" ++ "null"
       else "工具 " ++ pyStr name ++ " 错误: " ++ msg) := by
  constructor
  · simp only [renderResult, resultErrorTruthy, Bool.false_eq_true, if_false, resultData]
  · by_cases hm : msg = ""
    · subst hm
      simp [renderResult, resultErrorTruthy, resultData, dumps,
        show ¬ (2000 < "null".length) from by decide]
    · simp [renderResult, resultErrorTruthy, resultErrorMsg, hm]

/-- Distinct folded lines: a success line never coincides with an error
line for the same tool name (they differ right after the shared prefix). -/
theorem result_line_ne_error_line (p a b : String) :
    "工具 " ++ p ++ " 结果:\n" ++ a ≠ "工具 " ++ p ++ " 错误: " ++ b := by
  intro h
  have h2 := congrArg String.data h
  simp only [String.data_append, List.append_assoc] at h2
  have h3 := List.append_cancel_left (List.append_cancel_left h2)
  have h4 := congrArg (fun l => l[1]?) h3
  simp only [show (" 结果:\n".data ++ a.data)[1]? = some '结' from rfl,
    show (" 错误: ".data ++ b.data)[1]? = some '错' from rfl] at h4
  exact absurd (Option.some.injEq _ _ ▸ h4) (by decide)

/-- C9: the folding step renders a result as an error line exactly when the
result dict maps `error` to a truthy value (`result.get("error")`); in
particular a handler exception whose message is the empty string is
rendered as a success line with `null` data, not as an error line. -/
theorem render_error_line_iff_truthy (name : Json) (r : ToolResult) :
    ((∃ t, renderResult name r = "工具 " ++ pyStr name ++ " 错误: " ++ t) ↔
      resultErrorTruthy r = true) ∧
    renderResult name (ToolResult.error "") =
      "工具 " ++ pyStr name ++ " 结果:\n" ++ "null" := by
  constructor
  · constructor
    · rintro ⟨t, ht⟩
      by_contra hf
      rw [renderResult, if_neg (by simpa using hf)] at ht
      exact result_line_ne_error_line (pyStr name) _ t ht
    · intro htr
      exact ⟨resultErrorMsg r, by rw [renderResult, if_pos htr]⟩
  · simp [renderResult, resultErrorTruthy, resultData, dumps,
      show ¬ (2000 < "null".length) from by decide]

/-- C7: the composite lookup chains client → quotation-by-id →
services-by-id-list and short-circuits with a message explaining the first
missing link.  When no client with the given name exists, the result is
`\x7bclient: null, quotation: null, services: [], total_services: 0\x7d`
with the not-found message naming the client, and the result is
independent of the quotation and service-pricing collections (no lookup
into them can influence it); a client without a truthy `quotation_id`
stops with the no-quotation message; a dangling `quotation_id` stops with
the missing-quotation message naming the id. -/
theorem query_client_quotation_short_circuit (db : MongoDB) (name : String) :
    (ClientModel_find_by_name db name = none →
      query_client_quotation db name =
        ⟨none, none, [], 0, some ("未找到客户: " ++ name)⟩ ∧
      ∀ (qs : List QuotationRec) (ss : List ServiceRec),
        query_client_quotation ⟨db.clients, qs, ss⟩ name =
          query_client_quotation db name) ∧
    (∀ c : ClientRec, ClientModel_find_by_name db name = some c →
      truthyOptStr c.quotation_id = false →
      query_client_quotation db name =
        ⟨some c.dict, none, [], 0, some "该客户没有关联的报价单"⟩) ∧
    (∀ (c : ClientRec) (qid : String), ClientModel_find_by_name db name = some c →
      c.quotation_id = some qid → qid ≠ "" →
      QuotationModel_find_by_id db qid = none →
      query_client_quotation db name =
        ⟨some c.dict, none, [], 0, some ("报价单不存在 (ID: " ++ qid ++ ")")⟩) := by
  refine ⟨fun h => ⟨?_, fun qs ss => ?_⟩, fun c hc ht => ?_, fun c qid hc hq hne hqf => ?_⟩
  · simp [query_client_quotation, h]
  · have h2 : ClientModel_find_by_name ⟨db.clients, qs, ss⟩ name = none := h
    simp [query_client_quotation, h, h2]
  · simp [query_client_quotation, hc, ht]
  · have ht : truthyOptStr (some qid) = true := by
      simp [truthyOptStr, hne]
    simp [query_client_quotation, hc, hq, ht, hqf]

/-- A store with no clients at all. -/
def qcqDB1 : MongoDB := ⟨[], [], []⟩

/-- A client without a quotation id. -/
def clientNoQuot : ClientRec := ⟨"甲社", none, Json.str "c1"⟩

/-- A client whose quotation id is dangling. -/
def clientBadQuot : ClientRec := ⟨"乙社", some "q9", Json.str "c2"⟩

def qcqDB2 : MongoDB := ⟨[clientNoQuot, clientBadQuot], [], []⟩

theorem query_client_quotation_short_circuit_witness :
    (query_client_quotation qcqDB1 "未知公司" =
      ⟨none, none, [], 0, some "未找到客户: 未知公司"⟩ ∧
     ∀ (qs : List QuotationRec) (ss : List ServiceRec),
       query_client_quotation ⟨qcqDB1.clients, qs, ss⟩ "未知公司" =
         query_client_quotation qcqDB1 "未知公司") ∧
    query_client_quotation qcqDB2 "甲社" =
      ⟨some clientNoQuot.dict, none, [], 0, some "该客户没有关联的报价单"⟩ ∧
    query_client_quotation qcqDB2 "乙社" =
      ⟨some clientBadQuot.dict, none, [], 0, some "报价单不存在 (ID: q9)"⟩ :=
  ⟨(query_client_quotation_short_circuit qcqDB1 "未知公司").1 rfl,
   (query_client_quotation_short_circuit qcqDB2 "甲社").2.1 clientNoQuot rfl rfl,
   (query_client_quotation_short_circuit qcqDB2 "乙社").2.2 clientBadQuot "q9" rfl rfl
     (by decide) rfl⟩

/-- C8: `clear_session` is idempotent and total: clearing an absent session
id leaves the agent unchanged (a no-op success, never an error), and
clearing the same id twice equals clearing it once. -/
theorem clear_session_idempotent (a : Agent) (sid : String) :
    clear_session (clear_session a sid) sid = clear_session a sid ∧
    (a.sessions.any (fun kv => kv.1 == sid) = false → clear_session a sid = a) := by
  constructor
  · cases h : a.sessions.any (fun kv => kv.1 == sid) with
    | false => simp [clear_session, h]
    | true =>
      have h2 : ((a.sessions.filter (fun kv => !(kv.1 == sid))).any
          (fun kv => kv.1 == sid)) = false := by
        rw [List.any_eq_false]
        intro kv hkv
        simpa using (List.mem_filter.mp hkv).2
      simp [clear_session, h, h2]
  · intro hf
    simp [clear_session, hf]

/-- An agent holding exactly one stored session. -/
def agentS : Agent := ⟨"p", [], [("s1", [⟨"user", "hi"⟩])]⟩

theorem clear_session_idempotent_witness :
    clear_session (clear_session agentS "s1") "s1" = clear_session agentS "s1" ∧
    agentS.sessions.any (fun kv => kv.1 == "s2") = false ∧
    clear_session agentS "s2" = agentS :=
  ⟨(clear_session_idempotent agentS "s1").1, rfl,
   (clear_session_idempotent agentS "s2").2 rfl⟩

theorem execute_tool_never_raises_witness :
    execute_tool envT (Json.str "t") (Json.obj []) = .ok (ToolResult.success Json.null) ∧
    execute_tool envT (Json.str "missing") (Json.obj []) =
      .ok (ToolResult.error "工具不存在: missing") :=
  ⟨(execute_tool_never_raises envT "t" []).trans rfl,
   (execute_tool_never_raises envT "missing" []).trans rfl⟩

theorem render_fold_truncation_witness :
    renderResult (Json.str "t") (ToolResult.success (Json.str "ok")) = "工具 t 结果:\n\"ok\"" ∧
    renderResult (Json.str "t") (ToolResult.error "boom") = "工具 t 错误: boom" :=
  ⟨(render_fold_truncation (Json.str "t") (Json.str "ok") "boom").1.trans rfl,
   (render_fold_truncation (Json.str "t") (Json.str "ok") "boom").2.trans rfl⟩

theorem render_error_line_iff_truthy_witness :
    (∃ t, renderResult (Json.str "x") (ToolResult.error "db down") =
      "工具 " ++ pyStr (Json.str "x") ++ " 错误: " ++ t) ∧
    renderResult (Json.str "x") (ToolResult.error "") =
      "工具 " ++ pyStr (Json.str "x") ++ " 结果:\n" ++ "null" :=
  ⟨(render_error_line_iff_truthy (Json.str "x") (ToolResult.error "db down")).1.mpr rfl,
   (render_error_line_iff_truthy (Json.str "x") (ToolResult.error "")).2⟩
